import Mathlib

/-!
Verification development for the wagering ledger and settlement engine of the
sportsbook subsystem: `src/models/house.js`, `src/models/wallet.js`,
`src/models/bet.js`, `src/models/event.js` and the placement/settlement
handlers of `src/routes/betting.js`.

Currency amounts and odds are JavaScript numbers; we embed them as exact
rationals (ℚ).  The one place where IEEE-754 special values are observable —
`calculateMaxBet`'s division by `odds - 1`, which yields `Infinity` or `NaN`
when `odds == 1` — is modelled explicitly by the `JSNum` type.
-/

namespace SportsBet

/-- Status of a bet record: `'active'`, `'won'` or `'lost'`. -/
inductive BetStatus
  | active
  | won
  | lost
deriving DecidableEq, Repr

/-- Status of an event: `'upcoming'`, `'live'` or `'finished'`. -/
inductive EventStatus
  | upcoming
  | live
  | finished
deriving DecidableEq, Repr

/-- A bet record as inserted by `POST /api/bets/place` (src/routes/betting.js,
`Bet.create`).  `potentialWin = amount * odds` is stored at creation time. -/
structure Bet where
  id : Nat
  userId : Nat
  eventId : Nat
  selection : String
  amount : ℚ
  odds : ℚ
  potentialWin : ℚ
  status : BetStatus
deriving DecidableEq, Repr

/-- An event record (src/models/event.js); only the fields the betting route
reads and writes. -/
structure Event where
  status : EventStatus
  winner : Option String
deriving DecidableEq, Repr

/-- The single house-bankroll record (src/models/house.js). -/
structure House where
  balance : ℚ
  totalMembershipRevenue : ℚ
  totalBetsReceived : ℚ
  totalPayouts : ℚ
  profit : ℚ
deriving DecidableEq, Repr

/-- The bankroll record inserted by `HouseBankroll.initialize`: every counter
starts at 0 (src/models/house.js lines 18-29). -/
def House.init : House :=
  { balance := 0, totalMembershipRevenue := 0, totalBetsReceived := 0
    totalPayouts := 0, profit := 0 }

/-- `HouseBankroll.addMembershipFee(amount)` (src/models/house.js lines 47-66):
`$inc` on `balance`, `totalMembershipRevenue` and `profit`. -/
def House.addMembershipFee (h : House) (amount : ℚ) : House :=
  { h with balance := h.balance + amount
           totalMembershipRevenue := h.totalMembershipRevenue + amount
           profit := h.profit + amount }

/-- `HouseBankroll.receiveBet(amount)` (src/models/house.js lines 68-87):
`$inc` on `balance` and `totalBetsReceived`; `profit` is untouched. -/
def House.receiveBet (h : House) (amount : ℚ) : House :=
  { h with balance := h.balance + amount
           totalBetsReceived := h.totalBetsReceived + amount }

/-- The rejection raised by `HouseBankroll.payout` when the bankroll cannot
cover the amount. -/
inductive PayoutError
  | insufficientHouseFunds
deriving DecidableEq, Repr

/-- `HouseBankroll.payout(amount)` (src/models/house.js lines 89-117): rejects
with `'Insufficient house funds'` if `doc.balance < amount`, otherwise `$inc`s
`balance` by `-amount`, `totalPayouts` by `amount` and `profit` by `-amount`.
A rejection performs no update, so the caller's record is unchanged. -/
def House.payout (h : House) (amount : ℚ) : Except PayoutError House :=
  if h.balance < amount then
    .error .insufficientHouseFunds
  else
    .ok { h with balance := h.balance - amount
                 totalPayouts := h.totalPayouts + amount
                 profit := h.profit - amount }

/-- Result of the floating-point computation in `calculateMaxBet`: a finite
value (kept exact as a rational), `Infinity`, `-Infinity` or `NaN`. -/
inductive JSNum
  | num (q : ℚ)
  | posInf
  | negInf
  | nan
deriving DecidableEq, Repr

/-- JavaScript division `a / b` for finite `a`, `b`: division by zero yields
`Infinity`, `-Infinity` or `NaN` according to the sign of the dividend. -/
def jsDiv (a b : ℚ) : JSNum :=
  if b = 0 then
    if 0 < a then .posInf else if a < 0 then .negInf else .nan
  else
    .num (a / b)

/-- `Math.floor` extended to the special values (`Math.floor(Infinity)` is
`Infinity`, `Math.floor(NaN)` is `NaN`). -/
def JSNum.jfloor : JSNum → JSNum
  | .num q => .num (⌊q⌋ : ℤ)
  | .posInf => .posInf
  | .negInf => .negInf
  | .nan => .nan

/-- `Math.max(5, x)` extended to the special values (`Math.max(5, NaN)` is
`NaN`). -/
def JSNum.max5 : JSNum → JSNum
  | .num q => .num (max 5 q)
  | .posInf => .posInf
  | .negInf => .num 5
  | .nan => .nan

/-- JavaScript comparison `a > x` for a finite `a` against a possibly
non-finite `x`: any comparison with `NaN` is false, and `a > Infinity` is
false. -/
def jsGt (a : ℚ) : JSNum → Bool
  | .num q => decide (q < a)
  | .posInf => false
  | .negInf => true
  | .nan => false

/-- `HouseBankroll.calculateMaxBet(odds)` (src/models/house.js lines 119-127):
`maxRisk = balance * 0.10`, `potentialPayout = maxRisk / (odds - 1)`, returns
`Math.max(5, Math.floor(potentialPayout))`.  At `odds == 1` the division is by
zero, so the JavaScript result is `Infinity` (positive bankroll) or `NaN`
(zero bankroll). -/
def House.calculateMaxBet (h : House) (odds : ℚ) : JSNum :=
  let maxRisk := h.balance * (1 / 10)
  ((jsDiv maxRisk (odds - 1)).jfloor).max5

/-- System state visible to the betting route: the bankroll record, the
per-user wallet balances and membership flags (src/models/wallet.js; a
never-seen user's wallet is lazily created with balance 0, so a total map with
default 0 is faithful), the event store and the bet store. -/
structure SysState where
  house : House
  walletBalance : Nat → ℚ
  membershipPaid : Nat → Bool
  events : Nat → Option Event
  bets : List Bet

/-- `Wallet.addFunds(userId, amount)` (src/models/wallet.js lines 40-52):
unconditional `$inc` on the user's balance. -/
def SysState.addFunds (s : SysState) (uid : Nat) (amount : ℚ) : SysState :=
  { s with walletBalance := fun u =>
      if u = uid then s.walletBalance u + amount else s.walletBalance u }

/-- The house-side effect of the membership branch of the Stripe webhook
(src/routes/betting.js lines 318-330): `House.addMembershipFee`. -/
def SysState.houseAddFee (s : SysState) (amount : ℚ) : SysState :=
  { s with house := s.house.addMembershipFee amount }

/-- The rejections of `POST /api/bets/place` (src/routes/betting.js lines
63-149), in source order.  `insufficientFunds` is the `Wallet.deductFunds`
rejection surfaced through the handler's catch block. -/
inductive PlaceBetError
  | membershipNotPaid
  | missingFields
  | betTooLarge (maxBet : JSNum)
  | insufficientHouseCoverage
  | eventNotFound
  | eventNotOpen
  | minimumBet
  | insufficientFunds
deriving DecidableEq, Repr

/-- `POST /api/bets/place` (src/routes/betting.js lines 63-149), for an
authenticated user `uid`.  Checks run in source order: membership, missing
fields (`!amount || !odds` catches a zero), the `calculateMaxBet` cap, the
50%-of-bankroll coverage guard, event existence and openness, the $5 minimum,
then `Wallet.deductFunds` → `House.receiveBet` → `Bet.create`.  Every
rejection happens before any write, except that `deductFunds` itself rejects
before updating, so each error branch returns the state unchanged. -/
def placeBet (s : SysState) (uid : Nat) (eventId : Nat) (selection : String)
    (amount odds : ℚ) : SysState × Except PlaceBetError Bet :=
  if ¬ s.membershipPaid uid then (s, .error .membershipNotPaid)
  else if amount = 0 ∨ odds = 0 then (s, .error .missingFields)
  else
    let potentialWin := amount * odds
    let maxBet := s.house.calculateMaxBet odds
    if jsGt amount maxBet then (s, .error (.betTooLarge maxBet))
    else if s.house.balance * (1 / 2) < potentialWin then
      (s, .error .insufficientHouseCoverage)
    else
      match s.events eventId with
      | none => (s, .error .eventNotFound)
      | some ev =>
        if ev.status ≠ .upcoming then (s, .error .eventNotOpen)
        else if amount < 5 then (s, .error .minimumBet)
        else if s.walletBalance uid < amount then (s, .error .insufficientFunds)
        else
          let s₁ := { s with walletBalance := fun u =>
              if u = uid then s.walletBalance u - amount else s.walletBalance u }
          let s₂ := { s₁ with house := s₁.house.receiveBet amount }
          let bet : Bet :=
            { id := s.bets.length, userId := uid, eventId := eventId
              selection := selection, amount := amount, odds := odds
              potentialWin := potentialWin, status := .active }
          ({ s₂ with bets := s₂.bets ++ [bet] }, .ok bet)

/-- `Bet.settle(id, result)` (src/models/bet.js lines 69-81): `$set` the
status of the record with the given id; there is no guard against the record
being already settled. -/
def settleBetList (bets : List Bet) (id : Nat) (st : BetStatus) : List Bet :=
  bets.map fun b => if b.id = id then { b with status := st } else b

/-- `Event.update(eventId, {status: 'finished', winner})` as called at the top
of the settlement handler (src/routes/betting.js line 382); a missing event is
silently left missing (`db.update` matches nothing). -/
def SysState.updateEventFinished (s : SysState) (eventId : Nat) (winner : String) :
    SysState :=
  { s with events := fun e =>
      if e = eventId then
        (s.events e).map fun ev => { ev with status := .finished, winner := some winner }
      else s.events e }

/-- Failures of the settlement handler: the solvency-gate 400 response, and a
mid-loop `House.payout` rejection surfaced through the catch block (a 500,
leaving the partial state behind). -/
inductive SettleError
  | insufficientHouseFunds (requiredPayout houseBalance shortfall : ℚ)
  | payoutFailed
deriving DecidableEq, Repr

/-- The success response of the settlement handler (src/routes/betting.js
lines 428-436). -/
structure SettlementReport where
  winners : Nat
  losers : Nat
  totalPayout : ℚ
  houseBalanceBefore : ℚ
  houseBalanceAfter : ℚ
  profit : ℚ
deriving DecidableEq, Repr

/-- The winners loop of the settlement handler (src/routes/betting.js lines
414-419): for each winning bet, `Bet.settle(id, 'won')`, then
`Wallet.addFunds(userId, potentialWin)`, then `House.payout(potentialWin)`.
If a payout rejects, the handler's catch fires with the bet already marked
won and the wallet already credited; the flag records whether the loop
completed. -/
def payWinners (s : SysState) : List Bet → SysState × Bool
  | [] => (s, true)
  | b :: rest =>
    let s₁ := { s with bets := settleBetList s.bets b.id .won }
    let s₂ := s₁.addFunds b.userId b.potentialWin
    match s₂.house.payout b.potentialWin with
    | .error _ => (s₂, false)
    | .ok h => payWinners { s₂ with house := h } rest

/-- The losers loop of the settlement handler (src/routes/betting.js lines
421-424): each losing bet is marked `'lost'`; no balance moves. -/
def settleLosers (s : SysState) : List Bet → SysState
  | [] => s
  | b :: rest => settleLosers { s with bets := settleBetList s.bets b.id .lost } rest

/-- The bets `Bet.findByEventId(eventId)` returns, regardless of status. -/
def eventBetsOf (s : SysState) (eventId : Nat) : List Bet :=
  s.bets.filter fun b => b.eventId = eventId

/-- The winner partition of the settlement handler: bets on the event whose
`selection` equals the submitted winner (again regardless of status). -/
def winBetsOf (s : SysState) (eventId : Nat) (winner : String) : List Bet :=
  (eventBetsOf s eventId).filter fun b => b.selection = winner

/-- The loser partition: every other bet on the event. -/
def loseBetsOf (s : SysState) (eventId : Nat) (winner : String) : List Bet :=
  (eventBetsOf s eventId).filter fun b => ¬ b.selection = winner

/-- `totalPayout`, the sum of the winners' `potentialWin` values. -/
def totalPayoutOf (s : SysState) (eventId : Nat) (winner : String) : ℚ :=
  ((winBetsOf s eventId winner).map Bet.potentialWin).sum

/-- `POST /api/admin/events/:id/settle` (src/routes/betting.js lines 372-440),
for an admin caller.  In source order: mark the event finished with the
winner, read all bets for the event, partition into winners and losers, sum
the winners' `potentialWin`; if `totalPayout > house.balance` respond 400 with
the shortfall (the event-status update has already happened); otherwise run
the winners loop then the losers loop and report. -/
def settle (s : SysState) (eventId : Nat) (winner : String) :
    SysState × Except SettleError SettlementReport :=
  let s₁ := s.updateEventFinished eventId winner
  let winBets := winBetsOf s₁ eventId winner
  let loseBets := loseBetsOf s₁ eventId winner
  let totalPayout := (winBets.map Bet.potentialWin).sum
  if s₁.house.balance < totalPayout then
    (s₁, .error (.insufficientHouseFunds totalPayout s₁.house.balance
      (totalPayout - s₁.house.balance)))
  else
    match payWinners s₁ winBets with
    | (s₂, false) => (s₂, .error .payoutFailed)
    | (s₂, true) =>
      let s₃ := settleLosers s₂ loseBets
      (s₃, .ok { winners := winBets.length, losers := loseBets.length
                 totalPayout := totalPayout
                 houseBalanceBefore := s₁.house.balance
                 houseBalanceAfter := s₃.house.balance
                 profit := s₃.house.profit })

/-- The operations of the claims' sequences: bet placement and settlement. -/
inductive Op
  | placeBet (uid eventId : Nat) (selection : String) (amount odds : ℚ)
  | settle (eventId : Nat) (winner : String)

/-- Apply one operation; the resulting state is kept whether the call
succeeded or failed, exactly as the HTTP handlers leave the stores. -/
def runOp (s : SysState) : Op → SysState
  | .placeBet uid e sel a o => (placeBet s uid e sel a o).1
  | .settle e w => (settle s e w).1

/-- Run a finite sequence of operations. -/
def run (s : SysState) (ops : List Op) : SysState := ops.foldl runOp s

/-- Non-negative stake requirement on an operation (a `PlaceBet` with a
non-negative amount; settlements carry no stake). -/
def stakeNonneg : Op → Prop
  | .placeBet _ _ _ a _ => 0 ≤ a
  | .settle _ _ => True

/-- The three mutating operations of the house ledger
(src/models/house.js). -/
inductive HouseOp
  | fee (amount : ℚ)
  | receiveBet (amount : ℚ)
  | payout (amount : ℚ)

/-- Apply one house-ledger operation; a rejected payout performs no update,
so the record is kept as it was. -/
def houseStep (h : House) : HouseOp → House
  | .fee a => h.addMembershipFee a
  | .receiveBet a => h.receiveBet a
  | .payout a =>
    match h.payout a with
    | .ok h' => h'
    | .error _ => h

/-- Run a finite sequence of house-ledger operations. -/
def runHouse (h : House) (ops : List HouseOp) : House := ops.foldl houseStep h

/-! ## Concrete fixtures used as test inputs -/

/-- Fixture: an event still open for betting. -/
def evUpcoming : Event := { status := .upcoming, winner := none }

/-- Fixture builder: user 1 is a paid member with a $100 wallet, event 1 is
upcoming, and the bankroll balance and bet store are parameters (the revenue
counters are set consistently with membership-only funding). -/
def mkState (bal : ℚ) (bets : List Bet) : SysState :=
  { house := { balance := bal, totalMembershipRevenue := bal
               totalBetsReceived := 0, totalPayouts := 0, profit := bal }
    walletBalance := fun u => if u = 1 then 100 else 0
    membershipPaid := fun u => u == 1
    events := fun e => if e = 1 then some evUpcoming else none
    bets := bets }

/-- Fixture: an active bet of user 1 on event 1, $5 at odds 3
(`potentialWin = 15`). -/
def bet15 : Bet :=
  { id := 0, userId := 1, eventId := 1, selection := "A"
    amount := 5, odds := 3, potentialWin := 15, status := .active }

/-- Fixture: an active bet of user 1 on event 1, $5 at odds 2
(`potentialWin = 10`). -/
def bet10 : Bet :=
  { id := 0, userId := 1, eventId := 1, selection := "A"
    amount := 5, odds := 2, potentialWin := 10, status := .active }

/-! ## Theorems -/

/-- C7: `HouseBankroll.payout(amount)` fails with `InsufficientHouseFunds`
exactly when `balance < amount` (a rejection performs no update, so every
bankroll field is unchanged on failure); otherwise it decrements `balance` by
`amount`, increments `totalPayouts` by `amount`, decrements `profit` by
`amount`, and leaves `totalMembershipRevenue` and `totalBetsReceived`
unchanged. -/
theorem payout_spec (h : House) (amount : ℚ) :
    (h.payout amount = .error .insufficientHouseFunds ↔ h.balance < amount) ∧
    (¬ h.balance < amount →
      h.payout amount = .ok
        { balance := h.balance - amount
          totalMembershipRevenue := h.totalMembershipRevenue
          totalBetsReceived := h.totalBetsReceived
          totalPayouts := h.totalPayouts + amount
          profit := h.profit - amount }) := by
  unfold House.payout
  by_cases hc : h.balance < amount <;> simp [hc]

/-- Witness for `payout_spec` at balance 10, amount 4. -/
theorem payout_spec_witness :
    (House.payout ⟨10, 10, 0, 0, 10⟩ 4 = .error .insufficientHouseFunds
        ↔ (House.mk 10 10 0 0 10).balance < 4) ∧
    (¬ (House.mk 10 10 0 0 10).balance < 4 →
      House.payout ⟨10, 10, 0, 0, 10⟩ 4 = .ok
        { balance := (House.mk 10 10 0 0 10).balance - 4
          totalMembershipRevenue := 10
          totalBetsReceived := 0
          totalPayouts := 0 + 4
          profit := (House.mk 10 10 0 0 10).profit - 4 }) :=
  payout_spec ⟨10, 10, 0, 0, 10⟩ 4

/-- C4: for every bankroll with balance `B ≥ 0` and every odds `o > 1`,
`calculateMaxBet o` is the finite value `max(5, ⌊0.10 · B / (o − 1)⌋)`
(here written `B * (1/10)`, exactly the source's `balance * 0.10`). -/
theorem calculateMaxBet_spec (h : House) (odds : ℚ)
    (hb : 0 ≤ h.balance) (ho : 1 < odds) :
    h.calculateMaxBet odds
      = JSNum.num ((max 5 ⌊h.balance * (1 / 10) / (odds - 1)⌋ : ℤ) : ℚ) := by
  have hne : odds - 1 ≠ 0 := sub_ne_zero.mpr (ne_of_gt ho)
  unfold House.calculateMaxBet jsDiv
  simp only [hne, if_false, JSNum.jfloor, JSNum.max5, JSNum.num.injEq]
  push_cast
  rfl

/-- Witness for `calculateMaxBet_spec` at balance 100, odds 2. -/
theorem calculateMaxBet_spec_witness :
    House.calculateMaxBet ⟨100, 100, 0, 0, 100⟩ 2
      = JSNum.num ((max 5 ⌊(House.mk 100 100 0 0 100).balance * (1 / 10) / (2 - 1)⌋ : ℤ) : ℚ) :=
  calculateMaxBet_spec ⟨100, 100, 0, 0, 100⟩ 2 (by norm_num) (by norm_num)

/-- One house-ledger operation preserves the two counter identities. -/
theorem houseStep_identities (h : House) (op : HouseOp)
    (h1 : h.profit = h.totalMembershipRevenue - h.totalPayouts)
    (h2 : h.balance = h.totalMembershipRevenue + h.totalBetsReceived - h.totalPayouts) :
    (houseStep h op).profit
      = (houseStep h op).totalMembershipRevenue - (houseStep h op).totalPayouts ∧
    (houseStep h op).balance
      = (houseStep h op).totalMembershipRevenue + (houseStep h op).totalBetsReceived
        - (houseStep h op).totalPayouts := by
  cases op with
  | fee a =>
    refine ⟨?_, ?_⟩ <;> simp [houseStep, House.addMembershipFee, h1, h2] <;> ring
  | receiveBet a =>
    refine ⟨?_, ?_⟩ <;> simp [houseStep, House.receiveBet, h1, h2] <;> ring
  | payout a =>
    simp only [houseStep, House.payout]
    by_cases hc : h.balance < a
    · rw [if_pos hc]
      exact ⟨h1, h2⟩
    · rw [if_neg hc]
      refine ⟨?_, ?_⟩
      · show h.profit - a = h.totalMembershipRevenue - (h.totalPayouts + a)
        rw [h1]; ring
      · show h.balance - a
            = h.totalMembershipRevenue + h.totalBetsReceived - (h.totalPayouts + a)
        rw [h2]; ring

/-- The counter identities hold after any run from a state satisfying them. -/
theorem runHouse_identities (ops : List HouseOp) (h : House)
    (h1 : h.profit = h.totalMembershipRevenue - h.totalPayouts)
    (h2 : h.balance = h.totalMembershipRevenue + h.totalBetsReceived - h.totalPayouts) :
    (runHouse h ops).profit
      = (runHouse h ops).totalMembershipRevenue - (runHouse h ops).totalPayouts ∧
    (runHouse h ops).balance
      = (runHouse h ops).totalMembershipRevenue + (runHouse h ops).totalBetsReceived
        - (runHouse h ops).totalPayouts := by
  induction ops generalizing h with
  | nil => exact ⟨h1, h2⟩
  | cons op rest ih =>
    have step := houseStep_identities h op h1 h2
    exact ih (houseStep h op) step.1 step.2

/-- C10: from the zero-initialized bankroll record, any finite sequence of
`addMembershipFee`, `receiveBet` and (successful) `payout` operations
maintains `profit = totalMembershipRevenue − totalPayouts` and
`balance = totalMembershipRevenue + totalBetsReceived − totalPayouts`; and
`profit` is not `totalMembershipRevenue + totalBetsReceived − totalPayouts`
in general, because `receiveBet` leaves `profit` unchanged — witnessed by the
sequence `[receiveBet 5]`. -/
theorem house_counter_consistency :
    (∀ ops : List HouseOp,
      (runHouse House.init ops).profit
        = (runHouse House.init ops).totalMembershipRevenue
          - (runHouse House.init ops).totalPayouts ∧
      (runHouse House.init ops).balance
        = (runHouse House.init ops).totalMembershipRevenue
          + (runHouse House.init ops).totalBetsReceived
          - (runHouse House.init ops).totalPayouts) ∧
    (runHouse House.init [HouseOp.receiveBet 5]).profit
      ≠ (runHouse House.init [HouseOp.receiveBet 5]).totalMembershipRevenue
        + (runHouse House.init [HouseOp.receiveBet 5]).totalBetsReceived
        - (runHouse House.init [HouseOp.receiveBet 5]).totalPayouts := by
  constructor
  · intro ops
    exact runHouse_identities ops House.init (by simp [House.init]) (by simp [House.init])
  · simp [runHouse, houseStep, House.receiveBet, House.init]

/-- A successful `payout` implies the amount was covered, and determines the
updated record. -/
theorem payout_ok_iff (h h' : House) (a : ℚ) (hp : h.payout a = .ok h') :
    a ≤ h.balance ∧
    h' = { h with balance := h.balance - a
                  totalPayouts := h.totalPayouts + a
                  profit := h.profit - a } := by
  unfold House.payout at hp
  by_cases hc : h.balance < a
  · rw [if_pos hc] at hp
    exact absurd hp (by simp)
  · rw [if_neg hc] at hp
    simp only [Except.ok.injEq] at hp
    exact ⟨not_lt.mp hc, hp.symm⟩

/-- The winners loop never drives the bankroll negative: every `payout` call
guards itself, and a rejected payout stops the loop with the balance
untouched. -/
theorem payWinners_nonneg (l : List Bet) (s : SysState)
    (hs : 0 ≤ s.house.balance) : 0 ≤ (payWinners s l).1.house.balance := by
  induction l generalizing s with
  | nil => exact hs
  | cons b rest ih =>
    simp only [payWinners, SysState.addFunds]
    cases hp : ({ s with bets := settleBetList s.bets b.id .won } : SysState).house.payout
        b.potentialWin with
    | error e => exact hs
    | ok h' =>
      have hok := payout_ok_iff _ _ _ hp
      have hbal : 0 ≤ h'.balance := by
        rw [hok.2]
        simpa using sub_nonneg.mpr hok.1
      exact ih _ hbal

/-- The losers loop only touches bet statuses. -/
theorem settleLosers_fields (l : List Bet) (s : SysState) :
    (settleLosers s l).house = s.house ∧
    (settleLosers s l).walletBalance = s.walletBalance ∧
    (settleLosers s l).events = s.events := by
  induction l generalizing s with
  | nil => exact ⟨rfl, rfl, rfl⟩
  | cons b rest ih =>
    rw [settleLosers]
    exact ih _

/-- One settlement call never drives the bankroll negative. -/
theorem settle_step_nonneg (s : SysState) (e : Nat) (w : String)
    (hs : 0 ≤ s.house.balance) : 0 ≤ (settle s e w).1.house.balance := by
  simp only [settle]
  split
  · exact hs
  · split
    · rename_i s₂ heq
      have h2 := payWinners_nonneg (winBetsOf (s.updateEventFinished e w) e w)
        (s.updateEventFinished e w) hs
      rw [heq] at h2
      exact h2
    · rename_i s₂ heq
      have h2 := payWinners_nonneg (winBetsOf (s.updateEventFinished e w) e w)
        (s.updateEventFinished e w) hs
      rw [heq] at h2
      show 0 ≤ (settleLosers s₂ (loseBetsOf (s.updateEventFinished e w) e w)).house.balance
      rw [(settleLosers_fields (loseBetsOf (s.updateEventFinished e w) e w) s₂).1]
      exact h2

/-- One bet placement never drives the bankroll negative (every accepted bet
adds its stake to the bankroll; every rejection leaves it untouched). -/
theorem placeBet_step_nonneg (s : SysState) (uid e : Nat) (sel : String)
    (a o : ℚ) (hs : 0 ≤ s.house.balance) :
    0 ≤ (placeBet s uid e sel a o).1.house.balance := by
  simp only [placeBet]
  split
  · exact hs
  · split
    · exact hs
    · split
      · exact hs
      · split
        · exact hs
        · split
          · exact hs
          · split
            · exact hs
            · split
              · exact hs
              · split
                · exact hs
                · rename_i hmin _
                  show 0 ≤ (s.house.receiveBet a).balance
                  simp only [House.receiveBet]
                  linarith [not_lt.mp hmin]

/-- One operation never drives the bankroll negative. -/
theorem runOp_nonneg (s : SysState) (op : Op) (hs : 0 ≤ s.house.balance) :
    0 ≤ (runOp s op).house.balance := by
  cases op with
  | placeBet uid e sel a o => exact placeBet_step_nonneg s uid e sel a o hs
  | settle e w => exact settle_step_nonneg s e w hs

/-- A run from a solvent state stays solvent. -/
theorem run_nonneg (ops : List Op) (s : SysState) (hs : 0 ≤ s.house.balance) :
    0 ≤ (run s ops).house.balance := by
  induction ops generalizing s with
  | nil => exact hs
  | cons op rest ih => exact ih _ (runOp_nonneg s op hs)

/-- C3: starting from the zero-balance bankroll, any finite sequence of
`PlaceBet`/`Settle` operations with non-negative stakes leaves
`HouseBankroll.balance` non-negative, and already after every prefix of the
sequence (so at every observable point). -/
theorem solvency_invariant (s : SysState) (ops : List Op)
    (h0 : s.house.balance = 0) (hst : ∀ op ∈ ops, stakeNonneg op) :
    0 ≤ (run s ops).house.balance ∧
    ∀ pre post : List Op, pre ++ post = ops → 0 ≤ (run s pre).house.balance := by
  have h : 0 ≤ s.house.balance := le_of_eq h0.symm
  exact ⟨run_nonneg ops s h, fun pre post _ => run_nonneg pre s h⟩

/-- Witness for `solvency_invariant`: a placement followed by a settlement
from the zero-balance fixture. -/
theorem solvency_invariant_witness :
    0 ≤ (run (mkState 0 []) [Op.placeBet 1 1 "A" 10 2, Op.settle 1 "A"]).house.balance ∧
    ∀ pre post : List Op,
      pre ++ post = [Op.placeBet 1 1 "A" 10 2, Op.settle 1 "A"] →
      0 ≤ (run (mkState 0 []) pre).house.balance :=
  solvency_invariant (mkState 0 []) [Op.placeBet 1 1 "A" 10 2, Op.settle 1 "A"]
    (by simp [mkState])
    (by
      intro op hop
      simp only [List.mem_cons, List.not_mem_nil, or_false] at hop
      rcases hop with rfl | rfl <;> norm_num [stakeNonneg])

/-- A completed winners loop debits the bankroll by exactly the winners'
total `potentialWin`, credits each user by the `potentialWin` of their bets in
the list, and leaves the event store untouched. -/
theorem payWinners_ok (l : List Bet) (s s' : SysState)
    (h : payWinners s l = (s', true)) :
    s'.house.balance = s.house.balance - (l.map Bet.potentialWin).sum ∧
    (∀ u, s'.walletBalance u
        = s.walletBalance u
          + ((l.filter fun b => b.userId = u).map Bet.potentialWin).sum) ∧
    s'.events = s.events := by
  induction l generalizing s with
  | nil =>
    simp only [payWinners, Prod.mk.injEq, and_true] at h
    subst h
    simp
  | cons b rest ih =>
    simp only [payWinners, SysState.addFunds] at h
    split at h
    · exact absurd h (by simp)
    · rename_i h' hp
      obtain ⟨hble, hrec⟩ := payout_ok_iff _ _ _ hp
      obtain ⟨ih1, ih2, ih3⟩ := ih _ h
      refine ⟨?_, ?_, ?_⟩
      · rw [ih1]
        simp [hrec, List.sum_cons]
        ring
      · intro u
        rw [ih2 u]
        by_cases hu : b.userId = u
        · simp [hu, List.filter_cons]
          ring
        · have hu' : ¬ u = b.userId := fun hh => hu hh.symm
          simp [hu, hu', List.filter_cons]
      · rw [ih3]

/-- C6: after every successful settlement, the reported pre-settlement
bankroll is the old balance, the reported post-settlement bankroll is the new
balance, the bankroll dropped by exactly the total payout
(`bankrollBefore − totalPayout = bankrollAfter`), every wallet gained exactly
the sum of the `potentialWin` values of that user's winning bets on the
event, and a user with no winning bet — in particular every loser — has an
unchanged wallet. -/
theorem settle_conservation (s s' : SysState) (e : Nat) (w : String)
    (rep : SettlementReport) (h : settle s e w = (s', .ok rep)) :
    rep.houseBalanceBefore = s.house.balance ∧
    rep.houseBalanceAfter = s'.house.balance ∧
    rep.totalPayout = totalPayoutOf s e w ∧
    s'.house.balance = s.house.balance - rep.totalPayout ∧
    (∀ u, s'.walletBalance u
        = s.walletBalance u
          + (((winBetsOf s e w).filter fun b => b.userId = u).map
              Bet.potentialWin).sum) ∧
    (∀ u, (∀ b ∈ winBetsOf s e w, b.userId ≠ u) →
        s'.walletBalance u = s.walletBalance u) := by
  simp only [settle] at h
  split at h
  · exact absurd h (by simp)
  · split at h
    · exact absurd h (by simp)
    · rename_i s₂ heq
      rw [Prod.mk.injEq] at h
      obtain ⟨hA, hR⟩ := h
      simp only [Except.ok.injEq] at hR
      subst hA
      subst hR
      have hwin : winBetsOf (s.updateEventFinished e w) e w = winBetsOf s e w := rfl
      have hlose : loseBetsOf (s.updateEventFinished e w) e w = loseBetsOf s e w := rfl
      rw [hwin] at heq ⊢
      rw [hlose]
      obtain ⟨pw1, pw2, _⟩ := payWinners_ok _ _ _ heq
      obtain ⟨sl1, sl2, _⟩ := settleLosers_fields (loseBetsOf s e w) s₂
      have hbal : (s.updateEventFinished e w).house.balance = s.house.balance := rfl
      refine ⟨hbal, rfl, rfl, ?_, ?_, ?_⟩
      · show (settleLosers s₂ (loseBetsOf s e w)).house.balance
            = s.house.balance - (List.map Bet.potentialWin (winBetsOf s e w)).sum
        rw [sl1, pw1, hbal]
      · intro u
        show (settleLosers s₂ (loseBetsOf s e w)).walletBalance u
            = s.walletBalance u
              + (((winBetsOf s e w).filter fun b => b.userId = u).map
                  Bet.potentialWin).sum
        rw [sl2, pw2 u]
        rfl
      · intro u hu
        show (settleLosers s₂ (loseBetsOf s e w)).walletBalance u
            = s.walletBalance u
        rw [sl2, pw2 u]
        have hnil : (winBetsOf s e w).filter (fun b => b.userId = u) = [] := by
          rw [List.filter_eq_nil]
          intro b hb
          simpa using hu b hb
        rw [hnil]
        simp [SysState.updateEventFinished]

/-- If every `potentialWin` in the list is non-negative and the bankroll
covers their total, the winners loop runs to completion: each individual
`payout` is covered when it is reached. -/
theorem payWinners_completes (l : List Bet) (s : SysState)
    (hnn : ∀ b ∈ l, 0 ≤ b.potentialWin)
    (hcov : (l.map Bet.potentialWin).sum ≤ s.house.balance) :
    (payWinners s l).2 = true := by
  induction l generalizing s with
  | nil => rfl
  | cons b rest ih =>
    have hrest : 0 ≤ (rest.map Bet.potentialWin).sum := by
      apply List.sum_nonneg
      intro x hx
      obtain ⟨y, hy, rfl⟩ := List.mem_map.mp hx
      exact hnn y (List.mem_cons_of_mem _ hy)
    have hb : b.potentialWin ≤ s.house.balance := by
      simp only [List.map_cons, List.sum_cons] at hcov
      linarith
    simp only [payWinners, SysState.addFunds]
    split
    · rename_i e' hp
      unfold House.payout at hp
      rw [if_neg (not_lt.mpr hb)] at hp
      exact absurd hp (by simp)
    · rename_i h' hp
      obtain ⟨_, hrec⟩ := payout_ok_iff _ _ _ hp
      apply ih
      · intro x hx
        exact hnn x (List.mem_cons_of_mem _ hx)
      · show (rest.map Bet.potentialWin).sum ≤ h'.balance
        rw [hrec]
        simp only [List.map_cons, List.sum_cons] at hcov
        show (rest.map Bet.potentialWin).sum ≤ s.house.balance - b.potentialWin
        linarith

/-- If the bankroll covers the winners' (non-negative) total payout, `settle`
succeeds. -/
theorem settle_succeeds (s : SysState) (e : Nat) (w : String)
    (hnn : ∀ b ∈ winBetsOf s e w, 0 ≤ b.potentialWin)
    (hcov : totalPayoutOf s e w ≤ s.house.balance) :
    ∃ rep, (settle s e w).2 = Except.ok rep := by
  simp only [settle]
  have hwin : winBetsOf (s.updateEventFinished e w) e w = winBetsOf s e w := rfl
  rw [hwin]
  rw [if_neg (not_lt.mpr
    (show ((winBetsOf s e w).map Bet.potentialWin).sum
        ≤ (s.updateEventFinished e w).house.balance from hcov))]
  rcases hpw : payWinners (s.updateEventFinished e w) (winBetsOf s e w) with ⟨s₂, flag⟩
  have hfl := payWinners_completes (winBetsOf s e w) (s.updateEventFinished e w) hnn
    (show ((winBetsOf s e w).map Bet.potentialWin).sum
        ≤ (s.updateEventFinished e w).house.balance from hcov)
  rw [hpw] at hfl
  have hflag : flag = true := hfl
  subst hflag
  exact ⟨_, rfl⟩

/-- C1 (amended): when the solvency gate fails, `Settle` returns
`InsufficientHouseFunds` carrying `required = totalPayout`,
`available = balance` and `shortfall = required − available`; no bet status,
no wallet and no bankroll field changes — but the event does not remain in
its pre-settlement state: it has already been marked `finished` with the
submitted winner before the gate runs.  A later retry can nevertheless
succeed, because `Settle` never reads the event status: as soon as the
bankroll covers the payout (say after a membership fee of `d`), the same call
returns a success report. -/
theorem settle_gate_failure (s s' : SysState) (e : Nat) (w : String)
    (r a sh : ℚ)
    (h : settle s e w = (s', .error (.insufficientHouseFunds r a sh))) :
    s'.bets = s.bets ∧ s'.house = s.house ∧ s'.walletBalance = s.walletBalance ∧
    r = totalPayoutOf s e w ∧ a = s.house.balance ∧ sh = r - a ∧
    s.house.balance < r ∧
    (∀ e', e' ≠ e → s'.events e' = s.events e') ∧
    (∀ ev, s.events e = some ev →
      s'.events e = some { ev with status := .finished, winner := some w }) ∧
    (∀ d : ℚ, (∀ b ∈ winBetsOf s e w, 0 ≤ b.potentialWin) →
      r ≤ s.house.balance + d →
      ∃ rep, (settle (s'.houseAddFee d) e w).2 = Except.ok rep) := by
  simp only [settle] at h
  split at h
  · rename_i hgate
    rw [Prod.mk.injEq] at h
    obtain ⟨hA, hR⟩ := h
    simp only [Except.error.injEq, SettleError.insufficientHouseFunds.injEq] at hR
    obtain ⟨hr, ha, hsh⟩ := hR
    subst hA
    refine ⟨rfl, rfl, rfl, ?_, ?_, ?_, ?_, ?_, ?_, ?_⟩
    · rw [← hr]; rfl
    · rw [← ha]; rfl
    · rw [← hsh, ← hr, ← ha]
    · rw [← hr]; exact hgate
    · intro e' he'
      simp [SysState.updateEventFinished, he']
    · intro ev hev
      simp [SysState.updateEventFinished, hev]
    · intro d hnn hcovd
      apply settle_succeeds
      · exact hnn
      · show ((winBetsOf (s.updateEventFinished e w) e w).map Bet.potentialWin).sum
            ≤ s.house.balance + d
        rw [hr]
        exact hcovd
  · split at h
    · exact absurd h (by simp)
    · exact absurd h (by simp)

/-- C1 is false as stated: on the fixture with bankroll 10 and a single
active bet with `potentialWin = 15`, the gate fails with the right shortfall,
but the event does not remain in its pre-settlement (`upcoming`) state — the
state after the failed call has it `finished` with the submitted winner. -/
theorem settle_gate_failure_event_mutated :
    (settle (mkState 10 [bet15]) 1 "A").2
      = Except.error (.insufficientHouseFunds 15 10 5) ∧
    (mkState 10 [bet15]).events 1 = some { status := .upcoming, winner := none } ∧
    (settle (mkState 10 [bet15]) 1 "A").1.events 1
      = some { status := .finished, winner := some "A" } := by
  norm_num [settle, mkState, bet15, winBetsOf, loseBetsOf, eventBetsOf,
    SysState.updateEventFinished, evUpcoming, List.filter]

/-- Witness for `settle_gate_failure` on the bankroll-10 fixture. -/
theorem settle_gate_failure_witness :
    (settle (mkState 10 [bet15]) 1 "A").1.bets = (mkState 10 [bet15]).bets ∧
    (settle (mkState 10 [bet15]) 1 "A").1.house = (mkState 10 [bet15]).house ∧
    (settle (mkState 10 [bet15]) 1 "A").1.walletBalance
      = (mkState 10 [bet15]).walletBalance ∧
    (15 : ℚ) = totalPayoutOf (mkState 10 [bet15]) 1 "A" ∧
    (10 : ℚ) = (mkState 10 [bet15]).house.balance ∧
    (5 : ℚ) = 15 - 10 ∧
    (mkState 10 [bet15]).house.balance < 15 ∧
    (∀ e', e' ≠ 1 → (settle (mkState 10 [bet15]) 1 "A").1.events e'
        = (mkState 10 [bet15]).events e') ∧
    (∀ ev, (mkState 10 [bet15]).events 1 = some ev →
      (settle (mkState 10 [bet15]) 1 "A").1.events 1
        = some { ev with status := .finished, winner := some "A" }) ∧
    (∀ d : ℚ, (∀ b ∈ winBetsOf (mkState 10 [bet15]) 1 "A", 0 ≤ b.potentialWin) →
      15 ≤ (mkState 10 [bet15]).house.balance + d →
      ∃ rep, (settle (((settle (mkState 10 [bet15]) 1 "A").1).houseAddFee d) 1 "A").2
        = Except.ok rep) := by
  have h2 : (settle (mkState 10 [bet15]) 1 "A").2
      = Except.error (.insufficientHouseFunds 15 10 5) := by
    norm_num [settle, mkState, bet15, winBetsOf, loseBetsOf, eventBetsOf,
      SysState.updateEventFinished, evUpcoming, List.filter]
  exact settle_gate_failure _ _ 1 "A" 15 10 5 (by rw [← h2])

/-- C2 fails on the code: `settle` never checks whether the event was already
settled (`Bet.settle` has no idempotence guard, and the handler reads the
event's bets regardless of their status), so a second `Settle` call on the
same event returns a second success report — not `EventAlreadySettled` — and
pays every winner again.  On the fixture, the first call pays user 1 $10
(wallet 100 → 110, bankroll 100 → 90) and the second call pays the same bet
again (wallet → 120, bankroll → 80). -/
theorem settle_twice_double_pays :
    (settle (mkState 100 [bet10]) 1 "A").2 = Except.ok ⟨1, 0, 10, 100, 90, 90⟩ ∧
    (settle (mkState 100 [bet10]) 1 "A").1.walletBalance 1 = 110 ∧
    (settle (settle (mkState 100 [bet10]) 1 "A").1 1 "A").2
      = Except.ok ⟨1, 0, 10, 90, 80, 80⟩ ∧
    (settle (settle (mkState 100 [bet10]) 1 "A").1 1 "A").1.walletBalance 1
      = 120 := by
  norm_num [settle, mkState, bet10, winBetsOf, loseBetsOf, eventBetsOf, payWinners,
    settleLosers, settleBetList, SysState.updateEventFinished, SysState.addFunds,
    House.payout, evUpcoming, List.filter]

/-- Witness for `settle_conservation` on the bankroll-100 fixture. -/
theorem settle_conservation_witness :
    (SettlementReport.mk 1 0 10 100 90 90).houseBalanceBefore
        = (mkState 100 [bet10]).house.balance ∧
    (SettlementReport.mk 1 0 10 100 90 90).houseBalanceAfter
        = (settle (mkState 100 [bet10]) 1 "A").1.house.balance ∧
    (SettlementReport.mk 1 0 10 100 90 90).totalPayout
        = totalPayoutOf (mkState 100 [bet10]) 1 "A" ∧
    (settle (mkState 100 [bet10]) 1 "A").1.house.balance
        = (mkState 100 [bet10]).house.balance
          - (SettlementReport.mk 1 0 10 100 90 90).totalPayout ∧
    (∀ u, (settle (mkState 100 [bet10]) 1 "A").1.walletBalance u
        = (mkState 100 [bet10]).walletBalance u
          + (((winBetsOf (mkState 100 [bet10]) 1 "A").filter
                fun b => b.userId = u).map Bet.potentialWin).sum) ∧
    (∀ u, (∀ b ∈ winBetsOf (mkState 100 [bet10]) 1 "A", b.userId ≠ u) →
        (settle (mkState 100 [bet10]) 1 "A").1.walletBalance u
          = (mkState 100 [bet10]).walletBalance u) := by
  have h2 : (settle (mkState 100 [bet10]) 1 "A").2
      = Except.ok ⟨1, 0, 10, 100, 90, 90⟩ := by
    norm_num [settle, mkState, bet10, winBetsOf, loseBetsOf, eventBetsOf, payWinners,
      settleLosers, settleBetList, SysState.updateEventFinished, SysState.addFunds,
      House.payout, evUpcoming, List.filter]
  exact settle_conservation _ _ 1 "A" _ (by rw [← h2])

/-- C5 (amended): with bankroll 30, a member's wager of $15 at odds 2.0 on an
upcoming event is rejected, but with `BetTooLarge` — the 10%-cap max stake is
5 — because that check runs before the 50% coverage guard; the coverage
condition (potential payout 30 exceeding the guard of 15) does hold but is
never reached. -/
theorem scenarioA_rejected_bet_too_large :
    (placeBet (mkState 30 []) 1 1 "A" 15 2).2
      = Except.error (.betTooLarge (JSNum.num 5)) ∧
    (mkState 30 []).house.balance * (1 / 2) < 15 * 2 := by
  constructor
  · norm_num [placeBet, mkState, House.calculateMaxBet, jsDiv, JSNum.jfloor,
      JSNum.max5, jsGt, evUpcoming]
  · norm_num [mkState]

/-- C5 is false as stated: the scenario-A wager (bankroll 30, amount 15,
odds 2.0) is not rejected with the `InsufficientHouseCoverage` reason. -/
theorem scenarioA_not_coverage_rejection :
    (placeBet (mkState 30 []) 1 1 "A" 15 2).2
      ≠ Except.error .insufficientHouseCoverage := by
  norm_num [placeBet, mkState, House.calculateMaxBet, jsDiv, JSNum.jfloor,
    JSNum.max5, jsGt, evUpcoming]
  decide

/-- Every rejection path of `placeBet` hands back the state unchanged, and a
wallet that cannot cover the stake forces a rejection path. -/
theorem placeBet_aborts (s : SysState) (uid e : Nat) (sel : String) (a o : ℚ)
    (h : s.walletBalance uid < a) :
    ∃ err, placeBet s uid e sel a o = (s, Except.error err) := by
  simp only [placeBet]
  split
  · exact ⟨_, rfl⟩
  · split
    · exact ⟨_, rfl⟩
    · split
      · exact ⟨_, rfl⟩
      · split
        · exact ⟨_, rfl⟩
        · split
          · exact ⟨_, rfl⟩
          · split
            · exact ⟨_, rfl⟩
            · split
              · exact ⟨_, rfl⟩
              · exact ⟨_, rfl⟩

/-- C8: when the user's wallet cannot cover the stake, `PlaceBet` aborts with
nothing mutated: the returned state is the input state — so the house was not
credited with the stake, no bet record was created, and the wallet balance is
unchanged — and no bet is returned. -/
theorem placeBet_debit_failure (s : SysState) (uid e : Nat) (sel : String)
    (a o : ℚ) (h : s.walletBalance uid < a) :
    (placeBet s uid e sel a o).1 = s ∧
    ∀ b, (placeBet s uid e sel a o).2 ≠ Except.ok b := by
  obtain ⟨err, herr⟩ := placeBet_aborts s uid e sel a o h
  rw [herr]
  exact ⟨rfl, fun b => by simp⟩

/-- Witness for `placeBet_debit_failure`: wallet 100, stake 150 on the
bankroll-10000 fixture. -/
theorem placeBet_debit_failure_witness :
    (placeBet (mkState 10000 []) 1 1 "A" 150 2).1 = mkState 10000 [] ∧
    ∀ b, (placeBet (mkState 10000 []) 1 1 "A" 150 2).2 ≠ Except.ok b :=
  placeBet_debit_failure (mkState 10000 []) 1 1 "A" 150 2 (by norm_num [mkState])

/-- C9 (amended): a wager with `odds == 1` is not rejected on account of its
odds.  With a positive bankroll, `calculateMaxBet 1` divides by zero and
yields the JavaScript `Infinity` (with a zero bankroll, `NaN`), the
`amount > maxBet` comparison is false either way, and a request with
`odds == 1` that passes the membership, coverage, event, minimum-stake and
wallet checks is accepted and recorded with odds 1. -/
theorem odds_one_not_rejected (s : SysState) (uid e : Nat) (sel : String)
    (a : ℚ) (ev : Event)
    (hm : s.membershipPaid uid = true) (ha : ¬ a = 0)
    (hbal : 0 < s.house.balance)
    (hcov : ¬ s.house.balance * (1 / 2) < a * 1)
    (hev : s.events e = some ev) (hst : ev.status = .upcoming)
    (hmin : ¬ a < 5) (hfund : ¬ s.walletBalance uid < a) :
    s.house.calculateMaxBet 1 = JSNum.posInf ∧
    (placeBet s uid e sel a 1).2
      = Except.ok { id := s.bets.length, userId := uid, eventId := e
                    selection := sel, amount := a, odds := 1
                    potentialWin := a * 1, status := .active } := by
  have hmax : s.house.calculateMaxBet 1 = JSNum.posInf := by
    have hpos : 0 < s.house.balance * (1 / 10) := mul_pos hbal (by norm_num)
    simp [House.calculateMaxBet, jsDiv, sub_self, hpos, hbal, JSNum.jfloor,
      JSNum.max5]
  have hcov' : ¬ s.house.balance * 2⁻¹ < a := by
    intro hlt
    exact hcov (by simpa using hlt)
  refine ⟨hmax, ?_⟩
  simp [placeBet, hm, hmax, hev, hst, ha, hcov, hcov', hmin, hfund, jsGt]

/-- Witness for `odds_one_not_rejected` on the bankroll-1000 fixture. -/
theorem odds_one_not_rejected_witness :
    (mkState 1000 []).house.calculateMaxBet 1 = JSNum.posInf ∧
    (placeBet (mkState 1000 []) 1 1 "A" 10 1).2
      = Except.ok { id := (mkState 1000 []).bets.length, userId := 1, eventId := 1
                    selection := "A", amount := 10, odds := 1
                    potentialWin := 10 * 1, status := .active } :=
  odds_one_not_rejected (mkState 1000 []) 1 1 "A" 10 evUpcoming
    (by norm_num [mkState]) (by norm_num) (by norm_num [mkState])
    (by norm_num [mkState]) (by norm_num [mkState]) rfl
    (by norm_num) (by norm_num [mkState])

/-- C9 is false as stated: a $10 wager at odds 1 by a funded member on an
upcoming event with bankroll 1000 is accepted, not rejected. -/
theorem odds_one_accepted :
    (placeBet (mkState 1000 []) 1 1 "A" 10 1).2
      = Except.ok { id := 0, userId := 1, eventId := 1, selection := "A"
                    amount := 10, odds := 1, potentialWin := 10
                    status := .active } := by
  norm_num [placeBet, mkState, House.calculateMaxBet, jsDiv, JSNum.jfloor, JSNum.max5,
    jsGt, evUpcoming, House.receiveBet]

end SportsBet
